import Mathlib

/-!
# Browser session and capture orchestration (`backend/service`)

A shallow embedding of `chromedp.go` and of the parts of `utils.go` it uses.

* Go standard-library and third-party functions called by the service
  (`path.Base`, `strconv.ParseBool`, `strconv.Itoa`, `fmt.Sprintf("%02d")`,
  `filepath.Join`, `uuid.UUID.String`) are modelled from their documented
  behaviour, on Unix (`filepath.Separator = '/'`).
* The browser, the clock, the id generator and the file system are an
  explicit `World`: a deterministic oracle that answers each action from the
  history of the events performed so far.  Every function of the service that
  has an effect takes the history and returns the extended history.
* A Go `error` is its message; `fmt.Errorf` with the verb `%v` writes that
  message into the new one.
* Starting the browser is part of the first `chromedp.Run`: when it fails, the
  first action of that run fails.
-/

namespace Service

/-! ## Go library functions -/

/-- The loop `for len(path) > 0 && path[len(path)-1] == '/'` of `path.Base`. -/
def stripTrailingSlashes (p : List Char) : List Char :=
  (p.reverse.dropWhile (fun c => c == '/')).reverse

/-- The step `if i := strings.LastIndexByte(path, '/'); i >= 0 { path = path[i+1:] }`. -/
def afterLastSlash (p : List Char) : List Char :=
  (p.reverse.takeWhile (fun c => c != '/')).reverse

/-- Go `path.Base`: the last element of a slash-separated path. -/
def pathBase (p : String) : String :=
  if p = "" then "."
  else
    let q := afterLastSlash (stripTrailingSlashes p.data)
    if q = [] then "/" else String.mk q

/-- Go `strconv.ParseBool`; `none` stands for the syntax error. -/
def ParseBool (s : String) : Option Bool :=
  if s ∈ ["1", "t", "T", "TRUE", "true", "True"] then some true
  else if s ∈ ["0", "f", "F", "FALSE", "false", "False"] then some false
  else none

/-- The decimal digit `d` as a character. -/
def digitChar (d : Nat) : Char := Char.ofNat (48 + d)

/-- Decimal digits of `n`, most significant first (`fuel` bounds the recursion). -/
def decimalDigits : Nat → Nat → List Char
  | 0, _ => []
  | fuel + 1, n =>
    if n < 10 then [digitChar n] else decimalDigits fuel (n / 10) ++ [digitChar (n % 10)]

/-- Decimal form of a natural number. -/
def formatNat (n : Nat) : List Char := decimalDigits (n + 1) n

/-- Go `strconv.Itoa`. -/
def Itoa (i : Int) : String :=
  match i with
  | Int.ofNat n => String.mk (formatNat n)
  | Int.negSucc n => String.mk ('-' :: formatNat (n + 1))

/-- Go `fmt.Sprintf("%02d", n)` for a non-negative `n`: zero-padded to width two. -/
def sprintf02d (n : Nat) : String :=
  String.mk (List.replicate (2 - (formatNat n).length) '0' ++ formatNat n)

/-- Split a path at every separator: `a//b` gives `a`, the empty element, `b`. -/
def splitSlash : List Char → List (List Char)
  | [] => [[]]
  | c :: cs =>
    if c = '/' then [] :: splitSlash cs
    else
      match splitSlash cs with
      | [] => [[c]]
      | e :: es => (c :: e) :: es

/-- The element loop of `filepath.Clean`: empty and `.` elements are dropped, a `..`
removes the element before it when there is one to remove, and is kept at the start of
a path that is not rooted. -/
def cleanElems (rooted : Bool) : List (List Char) → List (List Char) → List (List Char)
  | out, [] => out
  | out, e :: es =>
    if e = [] ∨ e = ['.'] then cleanElems rooted out es
    else if e = ['.', '.'] then
      match out.getLast? with
      | some l =>
        if l ≠ ['.', '.'] then cleanElems rooted out.dropLast es
        else if rooted then cleanElems rooted out es
        else cleanElems rooted (out ++ [e]) es
      | none =>
        if rooted then cleanElems rooted out es
        else cleanElems rooted (out ++ [e]) es
    else cleanElems rooted (out ++ [e]) es

/-- Go `filepath.Clean` on Unix. -/
def Clean (p : String) : String :=
  if p = "" then "."
  else
    let rooted : Bool := p.data.head? = some '/'
    let out := cleanElems rooted [] (splitSlash p.data)
    let body := (if rooted then ['/'] else []) ++ List.intercalate ['/'] out
    if body = [] then "." else String.mk body

/-- Go `filepath.Join` on Unix: leading empty elements are skipped, the rest is joined
with the separator and cleaned. -/
def filepathJoin (elem : List String) : String :=
  match elem.dropWhile (fun e => e = "") with
  | [] => ""
  | rest => Clean (String.mk (List.intercalate ['/'] (rest.map String.data)))

/-- A `uuid.UUID`: sixteen bytes. -/
abbrev UUID := Fin 16 → Fin 256

/-- The table `0123456789abcdef` of `encoding/hex`. -/
def hexDigit (n : Nat) : Char := "0123456789abcdef".data.getD n '0'

/-- The two hexadecimal digits of one byte. -/
def hexByte (b : Fin 256) : List Char := [hexDigit (b.val / 16), hexDigit (b.val % 16)]

/-- Go `hex.Encode`. -/
def hexEncode : List (Fin 256) → List Char
  | [] => []
  | b :: bs => hexByte b ++ hexEncode bs

/-- Go `uuid.UUID.String`: the form `xxxxxxxx-xxxx-xxxx-xxxx-xxxxxxxxxxxx`. -/
def UUID.String (u : UUID) : String :=
  let b := List.ofFn u
  String.mk (hexEncode (b.take 4) ++ '-' :: hexEncode ((b.drop 4).take 2)
    ++ '-' :: hexEncode ((b.drop 6).take 2) ++ '-' :: hexEncode ((b.drop 8).take 2)
    ++ '-' :: hexEncode (b.drop 10))

/-! ## Configuration (`utils.go`) -/

/-- The `Config` record of `utils.go`. -/
structure Config where
  DBHost : String
  DBPort : String
  DBName : String
  DBUser : String
  DBPassword : String
  Headless : Bool
  AdminPassword : String
  Front : String
  ChromeDP : String
  BRUrl : String
  BRAPIKey : String
deriving DecidableEq

/-- The process environment, as `os.LookupEnv` sees it. -/
abbrev Environ := String → Option String

/-- `GetEnv` of `utils.go`. -/
def GetEnv (env : Environ) (key defaultValue : String) : String :=
  match env key with
  | some value => value
  | none => defaultValue

/-! ## Allocator factory (`createAllocContext`) -/

/-- The value of a browser command-line flag. -/
inductive FlagValue where
  | bool (b : Bool)
  | str (s : String)
deriving DecidableEq

/-- What `createAllocContext` hands back: a local browser started with an option list, or a
connection to a remote debugging endpoint. -/
inductive Allocator where
  | exec (opts : List (String × FlagValue))
  | remote (url : String)
deriving DecidableEq

/-- The flag a local browser is started with: options are applied in order, each
`chromedp.Flag(name, value)` overwriting `initFlags[name]`, so the last one wins. -/
def flagValue (opts : List (String × FlagValue)) (name : String) : Option FlagValue :=
  (opts.reverse.find? (fun o => o.1 = name)).map Prod.snd

/-- The package-level state the service reads: the environment, `globalConfig`, and the
table `chromedp.DefaultExecAllocatorOptions` of the browser library (a list of flag
settings, taken as a parameter). -/
structure Proc where
  env : Environ
  globalConfig : Config
  defaultExecAllocatorOptions : List (String × FlagValue)

/-- `createAllocContext` of `chromedp.go`. -/
def createAllocContext (p : Proc) (headless : Bool) : Allocator :=
  let _headless :=
    match ParseBool (GetEnv p.env "HEADLESS" "true") with
    | some boolValue => boolValue
    | none => headless
  let opts := p.defaultExecAllocatorOptions ++
    [("headless", FlagValue.bool _headless),
     ("disable-gpu", FlagValue.bool false),
     ("enable-automation", FlagValue.bool false),
     ("disable-extensions", FlagValue.bool true)]
  if p.globalConfig.ChromeDP = "" then Allocator.exec opts
  else Allocator.remote p.globalConfig.ChromeDP

/-! ## The world: browser driver, clock, id generator, file system -/

deriving instance DecidableEq for Except

/-- Raw bytes. -/
abbrev Bytes := List Nat

/-- A decoded raster image. -/
structure Image where
  pixels : List Nat
deriving DecidableEq

/-- The calendar date of `time.Now()`. -/
structure Date where
  year : Int
  month : Nat
  day : Nat
deriving DecidableEq

/-- The effectful calls the service makes. -/
inductive Action where
  | navigate (url : String)
  | waitReady (sel : String)
  | location
  | waitVisible (sel : String)
  | sendKeys (sel : String) (text : String)
  | click (sel : String)
  | sleep (seconds : Nat)
  | captureScreenshot
  | pngDecode (data : Bytes)
  | timeNow
  | uuidNew
  | mkdirAll (path : String) (perm : Nat)
  | osCreate (path : String)
  | jpegEncode (path : String) (img : Image) (quality : Nat)
  | fileClose (path : String)
deriving DecidableEq

/-- One performed call and whether it succeeded. -/
structure Event where
  act : Action
  ok : Bool
deriving DecidableEq

/-- Whether the service looks at the error of the call: it does for every call but the
deferred `out.Close()`. -/
def Event.checked (ev : Event) : Bool :=
  match ev.act with
  | Action.fileClose _ => false
  | _ => true

/-- Go `fs.PathError`, the error type of the `os` calls on a file name. -/
structure PathError where
  Op : String
  Path : String
  Err : String
deriving DecidableEq

/-- Go `(*fs.PathError).Error`: `Op + " " + Path + ": " + Err.Error()`. -/
def PathError.Error (e : PathError) : String :=
  e.Op ++ " " ++ e.Path ++ ": " ++ e.Err

/-- A deterministic environment.  Each oracle answers from the events performed so far;
`exec` gives the error of a call that returns only an error (`none` is success); for a
call of the `os` package it gives the underlying system error, which the package wraps
in a `PathError`.  `mkdirFailedAt` is the directory named by a failing `os.MkdirAll`: the
path itself or the parent that could not be made.  A deadline that expires shows as the
pending call failing. -/
structure World where
  exec : List Event → Action → Option String
  location : List Event → Except String String
  screenshot : List Event → Except String Bytes
  pngDecode : Bytes → Except String Image
  now : List Event → Date
  newUUID : List Event → UUID
  mkdirFailedAt : List Event → String → String

/-- The call `chromedp.Run(ctx, actions...)` on calls that return only an error: they run
in order and the first error stops the run and is returned. -/
def runActions (w : World) : List Event → List Action → Option String × List Event
  | h, [] => (none, h)
  | h, a :: rest =>
    match w.exec h a with
    | some err => (some err, h ++ [Event.mk a false])
    | none => runActions w (h ++ [Event.mk a true]) rest

/-- Go `os.MkdirAll`: every error it returns is a `PathError` of the operation `mkdir`. -/
def osMkdirAll (w : World) (h : List Event) (path : String) (perm : Nat) : Option String :=
  match w.exec h (Action.mkdirAll path perm) with
  | some cause => some (PathError.mk "mkdir" (w.mkdirFailedAt h path) cause).Error
  | none => none

/-- Go `os.Create`: every error it returns is a `PathError` of the operation `open` on
the name it was given. -/
def osCreate (w : World) (h : List Event) (name : String) : Option String :=
  match w.exec h (Action.osCreate name) with
  | some cause => some (PathError.mk "open" name cause).Error
  | none => none

/-! ## Login (`loginGrafanaTasks`) -/

/-- Running the tasks built by `loginGrafanaTasks`. -/
def loginGrafanaTasks (w : World) (h : List Event) (grfanaURL username password : String) :
    Option String × List Event :=
  match runActions w h [Action.navigate (grfanaURL ++ "/login")] with
  | (some err, h1) => (some err, h1)
  | (none, h1) =>
    match runActions w h1 [Action.waitReady "body"] with
    | (some err, h2) => (some err, h2)
    | (none, h2) =>
      match w.location h2 with
      | Except.error err => (some err, h2 ++ [Event.mk Action.location false])
      | Except.ok currentLocation =>
        let h3 := h2 ++ [Event.mk Action.location true]
        let locationBase := pathBase currentLocation
        if locationBase ≠ "login" then (none, h3)
        else
          runActions w h3
            [Action.waitVisible "input[name=\x27user\x27]",
             Action.sendKeys "input[name=\x27user\x27]" username,
             Action.sendKeys "input[name=\x27password\x27]" password,
             Action.click "button[type=\x27submit\x27]",
             Action.waitReady ".page-dashboard"]

/-! ## Image persister (`saveScreenshotToFile`) -/

/-- Lines 164-169 of `saveScreenshotToFile`: the directory and the file path, from the
current date and the fresh id. -/
def screenshotPaths (now : Date) (id : UUID) : String × String :=
  let year := Itoa now.year
  let month := sprintf02d now.month
  let day := sprintf02d now.day
  let dirPath := filepathJoin ["static", "screenshots", year, month, day]
  let fileName := id.String ++ ".jpg"
  let filePath := filepathJoin [dirPath, fileName]
  (dirPath, filePath)

/-- `saveScreenshotToFile` of `chromedp.go`.  The errors of `os.MkdirAll` and `os.Create`
are returned as they are.  The deferred `out.Close()` runs on both exits that follow a
successful `os.Create`; its error is dropped. -/
def saveScreenshotToFile (w : World) (h : List Event) (data : Bytes) :
    Except String String × List Event :=
  match w.pngDecode data with
  | Except.error err =>
    (Except.error ("failed to decode PNG: " ++ err), h ++ [Event.mk (Action.pngDecode data) false])
  | Except.ok img =>
    let h1 := h ++ [Event.mk (Action.pngDecode data) true]
    let now := w.now h1
    let h2 := h1 ++ [Event.mk Action.timeNow true]
    let id := w.newUUID h2
    let h3 := h2 ++ [Event.mk Action.uuidNew true]
    let dirPath := (screenshotPaths now id).1
    let filePath := (screenshotPaths now id).2
    match osMkdirAll w h3 dirPath 493 with
    | some err => (Except.error err, h3 ++ [Event.mk (Action.mkdirAll dirPath 493) false])
    | none =>
      let h4 := h3 ++ [Event.mk (Action.mkdirAll dirPath 493) true]
      match osCreate w h4 filePath with
      | some err => (Except.error err, h4 ++ [Event.mk (Action.osCreate filePath) false])
      | none =>
        let h5 := h4 ++ [Event.mk (Action.osCreate filePath) true]
        match w.exec h5 (Action.jpegEncode filePath img 90) with
        | some err =>
          let h6 := h5 ++ [Event.mk (Action.jpegEncode filePath img 90) false]
          (Except.error ("failed to encode JPEG: " ++ err),
            h6 ++ [Event.mk (Action.fileClose filePath) (w.exec h6 (Action.fileClose filePath)).isNone])
        | none =>
          let h6 := h5 ++ [Event.mk (Action.jpegEncode filePath img 90) true]
          (Except.ok filePath,
            h6 ++ [Event.mk (Action.fileClose filePath) (w.exec h6 (Action.fileClose filePath)).isNone])

/-! ## Capture orchestrator (`ScreenCaptureTasks`) -/

/-- Modelled from the spec: the type `MonitorConnection` is declared outside the two source
files; the connection descriptor is a target base URL, a username and a password. -/
structure MonitorConnection where
  URL : String
  Username : String
  Password : String
deriving DecidableEq

/-- A Go `map[string]string`, as an association list with unique keys. -/
abbrev GoMap := List (String × String)

/-- The assignment `m[k] = v`. -/
def GoMap.set (m : GoMap) (k v : String) : GoMap :=
  (k, v) :: m.filter (fun kv => kv.1 ≠ k)

/-- The keys of a map. -/
def GoMap.keys (m : GoMap) : List String := m.map Prod.fst

/-- The call `chromedp.Run(defaultChromeContext, tasks)` of the loop body: navigate, wait
for the dashboard marker, sleep two seconds, capture. -/
def captureTasks (w : World) (h : List Event) (url : String) : Except String Bytes × List Event :=
  match runActions w h
      [Action.navigate url, Action.waitVisible ".page-dashboard", Action.sleep 2] with
  | (some err, h1) => (Except.error err, h1)
  | (none, h1) =>
    match w.screenshot h1 with
    | Except.error err => (Except.error err, h1 ++ [Event.mk Action.captureScreenshot false])
    | Except.ok buf => (Except.ok buf, h1 ++ [Event.mk Action.captureScreenshot true])

/-- The loop `for _, url := range targetURLs` of `ScreenCaptureTasks`; an error is the
message of the `fmt.Errorf` that leaves the function. -/
def captureLoop (w : World) : List Event → List String → GoMap → Except String GoMap × List Event
  | h, [], m => (Except.ok m, h)
  | h, url :: rest, m =>
    match captureTasks w h url with
    | (Except.error err, h1) =>
      (Except.error ("failed to capture screenshot for URL " ++ url ++ ": " ++ err), h1)
    | (Except.ok buf, h1) =>
      match saveScreenshotToFile w h1 buf with
      | (Except.error err, h2) =>
        (Except.error ("failed to save screenshot for URL " ++ url ++ ": " ++ err), h2)
      | (Except.ok imagePath, h2) => captureLoop w h2 rest (m.set url imagePath)

/-- How a Go call ends: a run-time panic, or the returned pair (a `nil` map and a `nil`
error are `none`). -/
inductive GoResult where
  | panicked (msg : String)
  | returned (m : Option GoMap) (err : Option String)
deriving DecidableEq

/-- What one call of `ScreenCaptureTasks` does: the allocator it asked for, how it ended,
and the events it performed, in order. -/
structure Outcome where
  alloc : Allocator
  result : GoResult
  trace : List Event
deriving DecidableEq

/-- `ScreenCaptureTasks` of `chromedp.go`.  The argument `targetURLs[0]` of the `Println`
on line 118 is evaluated before the login tasks run.  `globalConfig` and `conn` are taken
to be set (not `nil`); the log lines and the deferred context cancellations leave no event. -/
def ScreenCaptureTasks (p : Proc) (w : World) (targetURLs : List String)
    (conn : MonitorConnection) : Outcome :=
  let urlToImageMap : GoMap := []
  let defaultAllocContext := createAllocContext p false
  match targetURLs.head? with
  | none =>
    Outcome.mk defaultAllocContext
      (GoResult.panicked "runtime error: index out of range [0] with length 0") []
  | some _ =>
    match loginGrafanaTasks w [] conn.URL conn.Username conn.Password with
    | (some err, h) =>
      Outcome.mk defaultAllocContext
        (GoResult.returned none (some ("failed to capture screenshot for  " ++ err))) h
    | (none, h) =>
      match captureLoop w h targetURLs urlToImageMap with
      | (Except.error msg, h1) => Outcome.mk defaultAllocContext (GoResult.returned none (some msg)) h1
      | (Except.ok m, h1) => Outcome.mk defaultAllocContext (GoResult.returned (some m) none) h1

/-! ## Reading a location the way the specification words it -/

/-- What follows the first `://` of a text, if there is one. -/
def afterSchemeSep : List Char → Option (List Char)
  | [] => none
  | c :: cs =>
    match c, cs with
    | ':', '/' :: '/' :: rest => some rest
    | _, _ => afterSchemeSep cs

/-- The path component of a location: the fragment (from `#`) and the query (from `?`) are
cut off, then the scheme and the authority (up to the next `/`). -/
def specURLPath (loc : List Char) : List Char :=
  let noQuery := (loc.takeWhile (fun c => c != '#')).takeWhile (fun c => c != '?')
  match afterSchemeSep noQuery with
  | some rest => rest.dropWhile (fun c => c != '/')
  | none => noQuery

/-- The words of the specification, "the resolved path's final segment": the text after
the last `/` of the location's path component. -/
def specFinalPathSegment (loc : String) : String :=
  String.mk (afterLastSlash (specURLPath loc.data))

/-- The marks a trace leaves: each navigation with its target, each call of the image
persister (which starts by decoding). -/
inductive Mark where
  | nav (url : String)
  | persist
deriving DecidableEq

/-- The navigations and persister calls of a trace, in order. -/
def marks : List Event → List Mark
  | [] => []
  | ev :: evs =>
    match ev.act with
    | Action.navigate url => Mark.nav url :: marks evs
    | Action.pngDecode _ => Mark.persist :: marks evs
    | _ => marks evs

/-- The fallible stages of the image persister. -/
inductive Stage where
  | decode
  | mkdir
  | create
  | encode
deriving DecidableEq

/-- The stage a call of the persister belongs to. -/
def stageOfCall : Action → Option Stage
  | Action.pngDecode _ => some Stage.decode
  | Action.mkdirAll _ _ => some Stage.mkdir
  | Action.osCreate _ => some Stage.create
  | Action.jpegEncode _ _ _ => some Stage.encode
  | _ => none

/-- The call a trace stopped on: its last call with an inspected error, when that call
failed. -/
def failedCall (tr : List Event) : Option Action :=
  match tr.reverse.find? (fun ev => ev.checked) with
  | some ev => if ev.ok then none else some ev.act
  | none => none

/-- What a caller reads off the error of the persister: the stage its text opens with. -/
def errorStage (msg : String) : Option Stage :=
  if "failed to decode PNG: ".data.isPrefixOf msg.data then some Stage.decode
  else if "mkdir ".data.isPrefixOf msg.data then some Stage.mkdir
  else if "open ".data.isPrefixOf msg.data then some Stage.create
  else if "failed to encode JPEG: ".data.isPrefixOf msg.data then some Stage.encode
  else none

/-- A path element that `filepath.Clean` keeps as it is: no separator inside, not empty,
not `.` and not `..`. -/
def PlainElem (e : List Char) : Prop :=
  '/' ∉ e ∧ e ≠ [] ∧ e ≠ ['.'] ∧ e ≠ ['.', '.']

instance (e : List Char) : Decidable (PlainElem e) := by
  unfold PlainElem
  infer_instance

/-! ## Sample worlds -/

/-- A session in which every call succeeds; after `/login` the browser reports `loc`. -/
def calmWorld (loc : String) : World where
  exec := fun _ _ => none
  location := fun _ => Except.ok loc
  screenshot := fun _ => Except.ok [137, 80, 78, 71]
  pngDecode := fun _ => Except.ok (Image.mk [0])
  now := fun _ => Date.mk 2024 3 7
  newUUID := fun h => fun i => Fin.ofNat (h.length + i.val)
  mkdirFailedAt := fun _ path => path

/-- A sample process state: no `HEADLESS` variable, a local browser. -/
def sampleProc : Proc where
  env := fun _ => none
  globalConfig := Config.mk "localhost" "3306" "gr-bd" "root" "tester" true "admin"
    "http://localhost:3000" "" "" ""
  defaultExecAllocatorOptions := [("headless", FlagValue.bool true), ("no-first-run", FlagValue.bool true)]

/-- A sample connection descriptor. -/
def sampleConn : MonitorConnection := MonitorConnection.mk "http://grafana:3000" "admin" "admin"

/-- After `/login` the browser reports `loc`, and the username field never shows: the wait
for it ends with the deadline. Every other call succeeds. -/
def stuckWorld (loc : String) : World where
  exec := fun _ a =>
    match a with
    | Action.waitVisible "input[name=\x27user\x27]" => some "context deadline exceeded"
    | _ => none
  location := fun _ => Except.ok loc
  screenshot := fun _ => Except.ok [137, 80, 78, 71]
  pngDecode := fun _ => Except.ok (Image.mk [0])
  now := fun _ => Date.mk 2024 3 7
  newUUID := fun h => fun i => Fin.ofNat (h.length + i.val)
  mkdirFailedAt := fun _ path => path

/-- The server is down: every navigation fails. -/
def refusedWorld : World where
  exec := fun _ a =>
    match a with
    | Action.navigate _ => some "page load error net::ERR_CONNECTION_REFUSED"
    | _ => none
  location := fun _ => Except.ok "http://grafana:3000/login"
  screenshot := fun _ => Except.ok [137, 80, 78, 71]
  pngDecode := fun _ => Except.ok (Image.mk [0])
  now := fun _ => Date.mk 2024 3 7
  newUUID := fun h => fun i => Fin.ofNat (h.length + i.val)
  mkdirFailedAt := fun _ path => path

/-- The directory cannot be created: the system call under `os.MkdirAll` fails with the
error `cause`, on the directory itself. -/
def mkdirFailsWorld (cause : String) : World where
  exec := fun _ a =>
    match a with
    | Action.mkdirAll _ _ => some cause
    | _ => none
  location := fun _ => Except.ok "http://grafana:3000/"
  screenshot := fun _ => Except.ok [137, 80, 78, 71]
  pngDecode := fun _ => Except.ok (Image.mk [0])
  now := fun _ => Date.mk 2024 3 7
  newUUID := fun h => fun i => Fin.ofNat (h.length + i.val)
  mkdirFailedAt := fun _ path => path

/-- The file cannot be created: the system call under `os.Create` fails with the error
`cause`. -/
def createFailsWorld (cause : String) : World where
  exec := fun _ a =>
    match a with
    | Action.osCreate _ => some cause
    | _ => none
  location := fun _ => Except.ok "http://grafana:3000/"
  screenshot := fun _ => Except.ok [137, 80, 78, 71]
  pngDecode := fun _ => Except.ok (Image.mk [0])
  now := fun _ => Date.mk 2024 3 7
  newUUID := fun h => fun i => Fin.ofNat (h.length + i.val)
  mkdirFailedAt := fun _ path => path

/-- The dashboard marker of the URL `slow` never shows; every other call succeeds. The
oracle reads the last navigation from the history. -/
def slowPageWorld (slow : String) : World where
  exec := fun h a =>
    match a with
    | Action.waitVisible ".page-dashboard" =>
      if (marks h).getLast? = some (Mark.nav slow) then some "context deadline exceeded" else none
    | _ => none
  location := fun _ => Except.ok "http://grafana:3000/"
  screenshot := fun _ => Except.ok [137, 80, 78, 71]
  pngDecode := fun _ => Except.ok (Image.mk [0])
  now := fun _ => Date.mk 2024 3 7
  newUUID := fun h => fun i => Fin.ofNat (h.length + i.val)
  mkdirFailedAt := fun _ path => path

/-- A batch of two dashboards. -/
def sampleA : String := "http://grafana:3000/d/a"

/-- The second dashboard of the sample batch. -/
def sampleB : String := "http://grafana:3000/d/b"

/-- The events of a login in the world where the dashboard `sampleB` never shows. -/
def sampleLoginTrace : List Event :=
  (loginGrafanaTasks (slowPageWorld sampleB) [] sampleConn.URL sampleConn.Username
    sampleConn.Password).2

/-- The events up to the end of the capture of `sampleA` in that world. -/
def sampleFirstTrace : List Event :=
  (captureLoop (slowPageWorld sampleB) sampleLoginTrace [sampleA] []).2

/-- The map after the capture of `sampleA` in that world. -/
def sampleFirstMap : GoMap :=
  match (captureLoop (slowPageWorld sampleB) sampleLoginTrace [sampleA] []).1 with
  | Except.ok m => m
  | Except.error _ => []

/-! ## Theorems -/

/-! ### Paths -/

theorem splitSlash_no_slash (e : List Char) (he : '/' ∉ e) : splitSlash e = [e] := by
  induction e with
  | nil => rfl
  | cons c cs ih =>
    have hc : c ≠ '/' := fun hc => he (hc ▸ List.mem_cons_self _ _)
    have hcs : '/' ∉ cs := fun hm => he (List.mem_cons_of_mem _ hm)
    simp [splitSlash, hc, ih hcs]

theorem splitSlash_append (e rest : List Char) (he : '/' ∉ e) :
    splitSlash (e ++ '/' :: rest) = e :: splitSlash rest := by
  induction e with
  | nil => simp [splitSlash]
  | cons c cs ih =>
    have hc : c ≠ '/' := fun hc => he (hc ▸ List.mem_cons_self _ _)
    have hcs : '/' ∉ cs := fun hm => he (List.mem_cons_of_mem _ hm)
    simp [splitSlash, hc, ih hcs]

theorem intercalate_cons_cons (sep x y : List Char) (ys : List (List Char)) :
    List.intercalate sep (x :: y :: ys) = x ++ (sep ++ List.intercalate sep (y :: ys)) := by
  simp [List.intercalate, List.intersperse]

theorem intercalate_singleton (sep x : List Char) : List.intercalate sep [x] = x := by
  simp [List.intercalate, List.intersperse]

theorem intercalate_append_singleton (sep f : List Char) :
    ∀ (es : List (List Char)), es ≠ [] →
      List.intercalate sep (es ++ [f]) = List.intercalate sep es ++ (sep ++ f) := by
  intro es
  induction es with
  | nil => intro hne; exact absurd rfl hne
  | cons x xs ih =>
    intro _
    cases xs with
    | nil => simp [intercalate_cons_cons, intercalate_singleton]
    | cons y ys =>
      have := ih (by simp)
      simp only [List.cons_append] at this ⊢
      rw [intercalate_cons_cons, this, intercalate_cons_cons]
      simp only [List.append_assoc]

theorem splitSlash_intercalate :
    ∀ (elems : List (List Char)), elems ≠ [] → (∀ e ∈ elems, '/' ∉ e) →
      splitSlash (List.intercalate ['/'] elems) = elems := by
  intro elems
  induction elems with
  | nil => intro hne; exact absurd rfl hne
  | cons x xs ih =>
    intro _ hp
    cases xs with
    | nil =>
      rw [intercalate_singleton]
      exact splitSlash_no_slash x (hp x (List.mem_cons_self _ _))
    | cons y ys =>
      rw [intercalate_cons_cons]
      have hx := hp x (List.mem_cons_self _ _)
      have := ih (by simp) (fun e he => hp e (List.mem_cons_of_mem _ he))
      simp only [List.singleton_append]
      rw [splitSlash_append x _ hx, this]

theorem cleanElems_plain (rooted : Bool) :
    ∀ (es out : List (List Char)), (∀ e ∈ es, PlainElem e) →
      cleanElems rooted out es = out ++ es := by
  intro es
  induction es with
  | nil => intro out _; simp [cleanElems]
  | cons e es ih =>
    intro out hp
    obtain ⟨_, h1, h2, h3⟩ := hp e (List.mem_cons_self _ _)
    simp only [cleanElems, h1, h2, h3, or_self, if_false]
    rw [ih _ (fun x hx => hp x (List.mem_cons_of_mem _ hx))]
    simp

/-- `filepath.Clean` leaves a path of plain elements as it is. -/
theorem Clean_plain (elems : List (List Char)) (hne : elems ≠ [])
    (hp : ∀ e ∈ elems, PlainElem e) :
    Clean (String.mk (List.intercalate ['/'] elems)) = String.mk (List.intercalate ['/'] elems) := by
  obtain ⟨x, xs, rfl⟩ := List.exists_cons_of_ne_nil hne
  obtain ⟨hx0, hx1, _, _⟩ := hp x (List.mem_cons_self _ _)
  obtain ⟨c, cs, rfl⟩ := List.exists_cons_of_ne_nil hx1
  have hc : c ≠ '/' := fun hc => hx0 (hc ▸ List.mem_cons_self _ _)
  have hhead : ∃ tl, List.intercalate ['/'] ((c :: cs) :: xs) = c :: tl := by
    cases xs with
    | nil => exact ⟨cs, by rw [intercalate_singleton]⟩
    | cons y ys => exact ⟨_, by rw [intercalate_cons_cons]; rfl⟩
  obtain ⟨tl, htl⟩ := hhead
  have hsplit := splitSlash_intercalate ((c :: cs) :: xs) hne (fun e he => (hp e he).1)
  unfold Clean
  have hne2 : String.mk (List.intercalate ['/'] ((c :: cs) :: xs)) ≠ "" := by
    rw [htl]
    intro h
    have := congrArg String.data h
    simp at this
  have hh : ¬ (List.intercalate ['/'] ((c :: cs) :: xs)).head? = some '/' := by
    rw [htl]
    simpa using hc
  have hnil : List.intercalate ['/'] ((c :: cs) :: xs) ≠ [] := by
    rw [htl]
    simp
  simp [hne2, hsplit, hh, hnil, cleanElems_plain false _ [] hp]

/-- `filepath.Join` of plain elements is the elements with a separator between them. -/
theorem filepathJoin_plain (elems : List String) (hne : elems ≠ [])
    (hp : ∀ e ∈ elems, PlainElem e.data) :
    filepathJoin elems = String.mk (List.intercalate ['/'] (elems.map String.data)) := by
  obtain ⟨x, xs, rfl⟩ := List.exists_cons_of_ne_nil hne
  have hx : x ≠ "" := by
    intro h
    have := (hp x (List.mem_cons_self _ _)).2.1
    simp [h] at this
  simp only [filepathJoin, List.dropWhile, hx, decide_False]
  exact Clean_plain _ (by simp) (by
    intro e he
    obtain ⟨s, hs, rfl⟩ := List.mem_map.1 he
    exact hp s hs)

/-- Joining a file name to a directory of plain elements. -/
theorem filepathJoin_dir_file (es : List (List Char)) (f : String) (hne : es ≠ [])
    (hp : ∀ e ∈ es, PlainElem e) (hf : PlainElem f.data) :
    filepathJoin [String.mk (List.intercalate ['/'] es), f] =
      String.mk (List.intercalate ['/'] es ++ '/' :: f.data) := by
  have hd : String.mk (List.intercalate ['/'] es) ≠ "" := by
    obtain ⟨x, xs, rfl⟩ := List.exists_cons_of_ne_nil hne
    obtain ⟨c, cs, rfl⟩ := List.exists_cons_of_ne_nil (hp x (List.mem_cons_self _ _)).2.1
    intro h
    have := congrArg String.data h
    cases xs with
    | nil => simp [intercalate_singleton] at this
    | cons y ys => simp [intercalate_cons_cons] at this
  simp only [filepathJoin, List.dropWhile, hd, decide_False, List.map]
  have hcat : List.intercalate ['/'] [List.intercalate ['/'] es, f.data] =
      List.intercalate ['/'] (es ++ [f.data]) := by
    rw [intercalate_append_singleton _ _ es hne, intercalate_cons_cons, intercalate_singleton]
  rw [hcat, Clean_plain (es ++ [f.data]) (by simp) (by
    intro e he
    rcases List.mem_append.1 he with h | h
    · exact hp e h
    · rw [List.mem_singleton.1 h]; exact hf), intercalate_append_singleton _ _ es hne]
  rfl

/-! ### Characters of the path elements -/

theorem digitChar_plain (d : Nat) (hd : d < 10) : digitChar d ≠ '/' ∧ digitChar d ≠ '.' := by
  interval_cases d <;> decide

theorem decimalDigits_chars :
    ∀ (fuel n : Nat) (c : Char), c ∈ decimalDigits fuel n → c ≠ '/' ∧ c ≠ '.' := by
  intro fuel
  induction fuel with
  | zero => intro n c hc; simp [decimalDigits] at hc
  | succ fuel ih =>
    intro n c hc
    simp only [decimalDigits] at hc
    split at hc
    · rename_i hlt
      rw [List.mem_singleton.1 hc]
      exact digitChar_plain n hlt
    · rcases List.mem_append.1 hc with h | h
      · exact ih _ _ h
      · rw [List.mem_singleton.1 h]
        exact digitChar_plain _ (Nat.mod_lt _ (by decide))

theorem formatNat_ne_nil (n : Nat) : formatNat n ≠ [] := by
  simp only [formatNat, decimalDigits]
  split <;> simp

/-- The decimal form agrees with the base-ten digits of the number. -/
theorem decimalDigits_eq_digits :
    ∀ (fuel n : Nat), n < fuel → 0 < n →
      decimalDigits fuel n = ((Nat.digits 10 n).reverse).map digitChar := by
  intro fuel
  induction fuel with
  | zero => intro n hn; omega
  | succ fuel ih =>
    intro n hn hpos
    simp only [decimalDigits]
    split
    · rename_i hlt
      rw [Nat.digits_of_lt 10 n (by omega) hlt]
      rfl
    · rename_i hge
      rw [ih (n / 10) (by omega) (by omega), Nat.digits_def' (by decide) hpos]
      simp

theorem plain_of_chars (e : List Char) (hne : e ≠ []) (hc : ∀ c ∈ e, c ≠ '/' ∧ c ≠ '.') :
    PlainElem e := by
  refine ⟨fun hm => (hc _ hm).1 rfl, hne, ?_, ?_⟩
  · intro h
    exact (hc '.' (by simp [h])).2 rfl
  · intro h
    exact (hc '.' (by simp [h])).2 rfl

theorem Itoa_plain (i : Int) : PlainElem (Itoa i).data := by
  cases i with
  | ofNat n =>
    exact plain_of_chars _ (formatNat_ne_nil n) (fun c hc => decimalDigits_chars _ _ c hc)
  | negSucc n =>
    refine plain_of_chars _ (by simp [Itoa]) ?_
    intro c hc
    simp only [Itoa, List.mem_cons] at hc
    rcases hc with h | h
    · rw [h]; decide
    · exact decimalDigits_chars _ _ c h

theorem sprintf02d_plain (n : Nat) : PlainElem (sprintf02d n).data := by
  refine plain_of_chars _ ?_ ?_
  · simp [sprintf02d, formatNat_ne_nil]
  · intro c hc
    simp only [sprintf02d, List.mem_append] at hc
    rcases hc with h | h
    · rw [(List.mem_replicate.1 h).2]; decide
    · exact decimalDigits_chars _ _ c h

/-- A month or a day is written with exactly two digits. -/
theorem sprintf02d_two_digits (n : Nat) (hn : n ≤ 31) :
    sprintf02d n = String.mk [digitChar (n / 10), digitChar (n % 10)] := by
  interval_cases n <;> rfl

theorem hexDigit_ne_slash (k : Nat) : hexDigit k ≠ '/' := by
  rcases Nat.lt_or_ge k 16 with h | h
  · interval_cases k <;> decide
  · have : hexDigit k = '0' := by
      unfold hexDigit
      exact List.getD_eq_default _ _ (by simpa using h)
    rw [this]; decide

theorem hexEncode_no_slash (bs : List (Fin 256)) : '/' ∉ hexEncode bs := by
  induction bs with
  | nil => simp [hexEncode]
  | cons b bs ih =>
    simp only [hexEncode, hexByte, List.cons_append, List.nil_append, List.mem_cons, not_or]
    exact ⟨fun h => hexDigit_ne_slash _ h.symm, fun h => hexDigit_ne_slash _ h.symm, ih⟩

theorem hexEncode_length (bs : List (Fin 256)) : (hexEncode bs).length = 2 * bs.length := by
  induction bs with
  | nil => rfl
  | cons b bs ih => simp [hexEncode, hexByte, ih]; omega

theorem hexDigit_inj : ∀ a < 16, ∀ b < 16, hexDigit a = hexDigit b → a = b := by
  decide

theorem hexEncode_inj : ∀ (xs ys : List (Fin 256)), hexEncode xs = hexEncode ys → xs = ys := by
  intro xs
  induction xs with
  | nil =>
    intro ys h
    cases ys with
    | nil => rfl
    | cons y ys => simp [hexEncode, hexByte] at h
  | cons x xs ih =>
    intro ys h
    cases ys with
    | nil => simp [hexEncode, hexByte] at h
    | cons y ys =>
      simp only [hexEncode, hexByte, List.cons_append, List.nil_append, List.cons.injEq] at h
      obtain ⟨h1, h2, h3⟩ := h
      have e1 := hexDigit_inj _ (by omega) _ (by omega) h1
      have e2 := hexDigit_inj _ (Nat.mod_lt _ (by decide)) _ (Nat.mod_lt _ (by decide)) h2
      have : x = y := Fin.ext (by omega)
      rw [this, ih ys h3]

theorem UUID_String_length (u : UUID) : u.String.data.length = 36 := by
  simp [UUID.String, hexEncode_length]

theorem UUID_String_no_slash (u : UUID) : '/' ∉ u.String.data := by
  simp only [UUID.String, List.mem_append, List.mem_cons, not_or]
  have := hexEncode_no_slash
  simp [this]

theorem fileName_plain (u : UUID) : PlainElem (u.String ++ ".jpg").data := by
  have hlen : (u.String ++ ".jpg").data.length = 40 := by
    rw [String.data_append, List.length_append, UUID_String_length]
    rfl
  refine ⟨?_, ?_, ?_, ?_⟩
  · simp only [String.data_append, List.mem_append, not_or]
    exact ⟨UUID_String_no_slash u, by decide⟩
  · intro h; simp [h] at hlen
  · intro h; simp [h] at hlen
  · intro h; simp [h] at hlen

/-- The string form of an id determines the id. -/
theorem UUID_String_inj (u v : UUID) (h : u.String = v.String) : u = v := by
  have hu : (List.ofFn u).length = 16 := List.length_ofFn u
  have hv : (List.ofFn v).length = 16 := List.length_ofFn v
  have split16 : ∀ (l : List (Fin 256)),
      l = l.take 4 ++ ((l.drop 4).take 2 ++ ((l.drop 6).take 2 ++ ((l.drop 8).take 2
        ++ l.drop 10))) := by
    intro l
    have e1 : l.drop 8 = (l.drop 8).take 2 ++ l.drop 10 := by
      rw [show l.drop 10 = (l.drop 8).drop 2 by rw [List.drop_drop], List.take_append_drop]
    have e2 : l.drop 6 = (l.drop 6).take 2 ++ l.drop 8 := by
      rw [show l.drop 8 = (l.drop 6).drop 2 by rw [List.drop_drop], List.take_append_drop]
    have e3 : l.drop 4 = (l.drop 4).take 2 ++ l.drop 6 := by
      rw [show l.drop 6 = (l.drop 4).drop 2 by rw [List.drop_drop], List.take_append_drop]
    rw [← e1, ← e2, ← e3, List.take_append_drop]
  have hd := congrArg String.data h
  simp only [UUID.String, List.append_assoc, List.cons_append] at hd
  obtain ⟨a1, hd⟩ := List.append_inj hd (by simp [hexEncode_length, hu, hv])
  simp only [List.cons.injEq, true_and] at hd
  obtain ⟨a2, hd⟩ := List.append_inj hd (by simp [hexEncode_length, hu, hv])
  simp only [List.cons.injEq, true_and] at hd
  obtain ⟨a3, hd⟩ := List.append_inj hd (by simp [hexEncode_length, hu, hv])
  simp only [List.cons.injEq, true_and] at hd
  obtain ⟨a4, hd⟩ := List.append_inj hd (by simp [hexEncode_length, hu, hv])
  simp only [List.cons.injEq, true_and] at hd
  have hl : List.ofFn u = List.ofFn v := by
    rw [split16 (List.ofFn u), split16 (List.ofFn v), hexEncode_inj _ _ a1, hexEncode_inj _ _ a2,
      hexEncode_inj _ _ a3, hexEncode_inj _ _ a4, hexEncode_inj _ _ hd]
  exact List.ofFn_injective hl

/-- The two paths of `screenshotPaths`, written out. -/
theorem screenshotPaths_eq (now : Date) (id : UUID) :
    (screenshotPaths now id).1 =
        "static/screenshots/" ++ Itoa now.year ++ "/" ++ sprintf02d now.month ++ "/"
          ++ sprintf02d now.day
    ∧ (screenshotPaths now id).2 =
        "static/screenshots/" ++ Itoa now.year ++ "/" ++ sprintf02d now.month ++ "/"
          ++ sprintf02d now.day ++ "/" ++ id.String ++ ".jpg" := by
  have hplain : ∀ e ∈ ["static", "screenshots", Itoa now.year, sprintf02d now.month,
      sprintf02d now.day], PlainElem e.data := by
    intro e he
    simp only [List.mem_cons, List.mem_singleton, List.not_mem_nil, or_false] at he
    rcases he with h | h | h | h | h
    · rw [h]; exact plain_of_chars _ (by decide) (by decide)
    · rw [h]; exact plain_of_chars _ (by decide) (by decide)
    · rw [h]; exact Itoa_plain _
    · rw [h]; exact sprintf02d_plain _
    · rw [h]; exact sprintf02d_plain _
  have hdir := filepathJoin_plain _ (by simp) hplain
  have hfile := filepathJoin_dir_file
    (["static", "screenshots", Itoa now.year, sprintf02d now.month,
      sprintf02d now.day].map String.data) (id.String ++ ".jpg") (by simp)
    (by
      intro e he
      obtain ⟨s, hs, rfl⟩ := List.mem_map.1 he
      exact hplain s hs)
    (fileName_plain id)
  simp only [screenshotPaths]
  rw [hdir, hfile]
  constructor
  · apply String.ext
    simp [String.data_append, intercalate_cons_cons, intercalate_singleton]
  · apply String.ext
    simp [String.data_append, intercalate_cons_cons, intercalate_singleton]

/-! ### Image persister: the path -/

/-- C7: for every calendar date and every id, the path of the screenshot is
`static/screenshots/<YYYY>/<MM>/<DD>/<id>.jpg`, with the year in decimal, the month and the
day each written as exactly two decimal digits, and the id in its string form; another id
on the same date gives another path in the same directory; and this is the path a
successful `saveScreenshotToFile` returns, for the date and the id it drew. -/
theorem saveScreenshotToFile_path_layout (now : Date) (id : UUID)
    (hmonth : 1 ≤ now.month ∧ now.month ≤ 12) (hday : 1 ≤ now.day ∧ now.day ≤ 31) :
    (screenshotPaths now id).2 =
        "static/screenshots/" ++ Itoa now.year ++ "/"
          ++ String.mk [digitChar (now.month / 10), digitChar (now.month % 10)] ++ "/"
          ++ String.mk [digitChar (now.day / 10), digitChar (now.day % 10)] ++ "/"
          ++ id.String ++ ".jpg"
    ∧ (∀ n : Nat, 0 < n → now.year = Int.ofNat n →
        (Itoa now.year).data = ((Nat.digits 10 n).reverse).map digitChar)
    ∧ (∀ other : UUID, other ≠ id →
        (screenshotPaths now other).2 ≠ (screenshotPaths now id).2
        ∧ (screenshotPaths now other).1 = (screenshotPaths now id).1)
    ∧ (∀ (w : World) (h : List Event) (data : Bytes) (path : String) (h' : List Event),
        saveScreenshotToFile w h data = (Except.ok path, h') →
        w.now (h ++ [Event.mk (Action.pngDecode data) true]) = now →
        w.newUUID (h ++ [Event.mk (Action.pngDecode data) true]
          ++ [Event.mk Action.timeNow true]) = id →
        path = (screenshotPaths now id).2) := by
  refine ⟨?_, ?_, ?_, ?_⟩
  · rw [(screenshotPaths_eq now id).2, sprintf02d_two_digits now.month (by omega),
      sprintf02d_two_digits now.day hday.2]
  · intro n hn hy
    rw [hy]
    exact decimalDigits_eq_digits (n + 1) n (Nat.lt_succ_self n) hn
  · intro other hne
    refine ⟨?_, ?_⟩
    · intro heq
      rw [(screenshotPaths_eq now other).2, (screenshotPaths_eq now id).2] at heq
      have hd := congrArg String.data heq
      simp only [String.data_append, List.append_assoc] at hd
      have hd2 := List.append_cancel_right
        (List.append_cancel_left (List.append_cancel_left (List.append_cancel_left
          (List.append_cancel_left (List.append_cancel_left (List.append_cancel_left
            (List.append_cancel_left hd)))))))
      exact hne (UUID_String_inj other id (String.ext hd2))
    · rw [(screenshotPaths_eq now other).1, (screenshotPaths_eq now id).1]
  · intro w h data path h' hrun hnow hid
    unfold saveScreenshotToFile at hrun
    split at hrun
    · simp at hrun
    · simp only at hrun
      split at hrun
      · simp at hrun
      · split at hrun
        · simp at hrun
        · split at hrun
          · simp at hrun
          · simp only [Prod.mk.injEq, Except.ok.injEq] at hrun
            rw [← hrun.1, hnow, hid]

/-- The layout on 7 March 2024 for the all-zero id. -/
theorem saveScreenshotToFile_path_layout_witness :
    (screenshotPaths (Date.mk 2024 3 7) (fun _ => 0)).2 =
        "static/screenshots/" ++ Itoa (Date.mk 2024 3 7).year ++ "/"
          ++ String.mk [digitChar ((Date.mk 2024 3 7).month / 10),
              digitChar ((Date.mk 2024 3 7).month % 10)] ++ "/"
          ++ String.mk [digitChar ((Date.mk 2024 3 7).day / 10),
              digitChar ((Date.mk 2024 3 7).day % 10)] ++ "/"
          ++ UUID.String (fun _ => 0) ++ ".jpg"
    ∧ (∀ n : Nat, 0 < n → (Date.mk 2024 3 7).year = Int.ofNat n →
        (Itoa (Date.mk 2024 3 7).year).data = ((Nat.digits 10 n).reverse).map digitChar)
    ∧ (∀ other : UUID, other ≠ (fun _ => 0) →
        (screenshotPaths (Date.mk 2024 3 7) other).2
          ≠ (screenshotPaths (Date.mk 2024 3 7) (fun _ => 0)).2
        ∧ (screenshotPaths (Date.mk 2024 3 7) other).1
          = (screenshotPaths (Date.mk 2024 3 7) (fun _ => 0)).1)
    ∧ (∀ (w : World) (h : List Event) (data : Bytes) (path : String) (h' : List Event),
        saveScreenshotToFile w h data = (Except.ok path, h') →
        w.now (h ++ [Event.mk (Action.pngDecode data) true]) = Date.mk 2024 3 7 →
        w.newUUID (h ++ [Event.mk (Action.pngDecode data) true]
          ++ [Event.mk Action.timeNow true]) = (fun _ => 0) →
        path = (screenshotPaths (Date.mk 2024 3 7) (fun _ => 0)).2) :=
  saveScreenshotToFile_path_layout (Date.mk 2024 3 7) (fun _ => 0) (by decide) (by decide)

/-- The path for the all-zero id on 7 March 2024. -/
theorem screenshotPaths_sample :
    (screenshotPaths (Date.mk 2024 3 7) (fun _ => 0)).2
      = "static/screenshots/2024/03/07/00000000-0000-0000-0000-000000000000.jpg" := by
  decide

/-! ### Traces -/

theorem marks_append (a b : List Event) : marks (a ++ b) = marks a ++ marks b := by
  induction a with
  | nil => rfl
  | cons ev evs ih =>
    simp only [List.cons_append, marks]
    split <;> simp [ih]

/-- A run that ends in an error has recorded the failed call. -/
theorem runActions_error_bad (w : World) :
    ∀ (acts : List Action) (h : List Event) (e : String) (h' : List Event),
      (∀ a ∈ acts, (Event.mk a false).checked = true) →
      runActions w h acts = (some e, h') → ∃ ev ∈ h', ev.checked = true ∧ ev.ok = false := by
  intro acts
  induction acts with
  | nil => intro h e h' _ hrun; simp [runActions] at hrun
  | cons a rest ih =>
    intro h e h' hacts hrun
    simp only [runActions] at hrun
    split at hrun
    · simp only [Prod.mk.injEq] at hrun
      exact ⟨Event.mk a false, by simp [← hrun.2], hacts a (List.mem_cons_self _ _), rfl⟩
    · exact ih _ _ _ (fun x hx => hacts x (List.mem_cons_of_mem _ hx)) hrun

/-- A login that ends in an error has recorded the failed call. -/
theorem loginGrafanaTasks_error_bad (w : World) (h : List Event) (url user pass e : String)
    (h' : List Event) (hrun : loginGrafanaTasks w h url user pass = (some e, h')) :
    ∃ ev ∈ h', ev.checked = true ∧ ev.ok = false := by
  unfold loginGrafanaTasks at hrun
  split at hrun
  · rename_i err h1 heq
    simp only [Prod.mk.injEq] at hrun
    rw [← hrun.2]
    exact runActions_error_bad w _ _ _ _ (by simp [Event.checked]) heq
  · split at hrun
    · rename_i err h2 heq
      simp only [Prod.mk.injEq] at hrun
      rw [← hrun.2]
      exact runActions_error_bad w _ _ _ _ (by simp [Event.checked]) heq
    · split at hrun
      · simp only [Prod.mk.injEq] at hrun
        exact ⟨Event.mk Action.location false, by simp [← hrun.2], rfl, rfl⟩
      · simp only at hrun
        split at hrun
        · simp at hrun
        · exact runActions_error_bad w _ _ _ _ (by simp [Event.checked]) hrun

/-- A capture run that ends in an error has recorded the failed call. -/
theorem captureTasks_error_bad (w : World) (h : List Event) (url e : String) (h' : List Event)
    (hrun : captureTasks w h url = (Except.error e, h')) :
    ∃ ev ∈ h', ev.checked = true ∧ ev.ok = false := by
  unfold captureTasks at hrun
  split at hrun
  · rename_i err h1 heq
    simp only [Prod.mk.injEq] at hrun
    rw [← hrun.2]
    exact runActions_error_bad w _ _ _ _ (by simp [Event.checked]) heq
  · split at hrun
    · simp only [Prod.mk.injEq] at hrun
      exact ⟨Event.mk Action.captureScreenshot false, by simp [← hrun.2], rfl, rfl⟩
    · simp at hrun

/-- A persister call that ends in an error has recorded the failed call. -/
theorem saveScreenshotToFile_error_bad (w : World) (h : List Event) (data : Bytes) (e : String)
    (h' : List Event) (hrun : saveScreenshotToFile w h data = (Except.error e, h')) :
    ∃ ev ∈ h', ev.checked = true ∧ ev.ok = false := by
  unfold saveScreenshotToFile at hrun
  split at hrun
  · simp only [Prod.mk.injEq] at hrun
    exact ⟨Event.mk (Action.pngDecode data) false, by simp [← hrun.2], rfl, rfl⟩
  · simp only at hrun
    split at hrun
    · simp only [Prod.mk.injEq] at hrun
      rw [← hrun.2]
      exact ⟨Event.mk (Action.mkdirAll _ 493) false,
        List.mem_append_right _ (List.mem_singleton_self _), rfl, rfl⟩
    · split at hrun
      · simp only [Prod.mk.injEq] at hrun
        rw [← hrun.2]
        exact ⟨Event.mk (Action.osCreate _) false,
          List.mem_append_right _ (List.mem_singleton_self _), rfl, rfl⟩
      · split at hrun
        · simp only [Prod.mk.injEq] at hrun
          rw [← hrun.2]
          exact ⟨_, List.mem_append_left _ (List.mem_append_right _ (List.mem_singleton_self _)),
            rfl, rfl⟩
        · simp at hrun

/-- A loop that ends in an error has recorded the failed call. -/
theorem captureLoop_error_bad (w : World) :
    ∀ (urls : List String) (h : List Event) (m : GoMap) (e : String) (h' : List Event),
      captureLoop w h urls m = (Except.error e, h') →
        ∃ ev ∈ h', ev.checked = true ∧ ev.ok = false := by
  intro urls
  induction urls with
  | nil => intro h m e h' hrun; simp [captureLoop] at hrun
  | cons url rest ih =>
    intro h m e h' hrun
    simp only [captureLoop] at hrun
    split at hrun
    · rename_i err h1 heq
      simp only [Prod.mk.injEq] at hrun
      rw [← hrun.2]
      exact captureTasks_error_bad w _ _ _ _ heq
    · split at hrun
      · rename_i err h2 heq
        simp only [Prod.mk.injEq] at hrun
        rw [← hrun.2]
        exact saveScreenshotToFile_error_bad w _ _ _ _ heq
      · exact ih _ _ _ _ hrun

/-! ### The result map -/

theorem GoMap.mem_keys_set (m : GoMap) (k v x : String) :
    x ∈ (m.set k v).keys ↔ x = k ∨ x ∈ m.keys := by
  simp only [GoMap.set, GoMap.keys, List.map_cons, List.mem_cons, List.mem_map, List.mem_filter]
  constructor
  · rintro (hx | ⟨kv, ⟨hkv, _⟩, rfl⟩)
    · exact Or.inl hx
    · exact Or.inr ⟨kv, hkv, rfl⟩
  · rintro (hx | ⟨kv, hkv, rfl⟩)
    · exact Or.inl hx
    · by_cases hk : kv.1 = k
      · exact Or.inl hk
      · exact Or.inr ⟨kv, ⟨hkv, by simpa using hk⟩, rfl⟩

theorem GoMap.nodup_keys_set (m : GoMap) (k v : String) (hm : m.keys.Nodup) :
    (m.set k v).keys.Nodup := by
  simp only [GoMap.set, GoMap.keys, List.map_cons, List.nodup_cons, List.mem_map,
    List.mem_filter]
  constructor
  · rintro ⟨kv, ⟨_, hne⟩, heq⟩
    simp [heq] at hne
  · exact (List.Nodup.sublist (List.Sublist.map _ (List.filter_sublist _)) hm)

/-- A loop that completes has added exactly the URLs it was given as keys. -/
theorem captureLoop_keys (w : World) :
    ∀ (urls : List String) (h : List Event) (m m' : GoMap) (h' : List Event),
      captureLoop w h urls m = (Except.ok m', h') →
        (∀ x, x ∈ m'.keys ↔ x ∈ m.keys ∨ x ∈ urls) ∧ (m.keys.Nodup → m'.keys.Nodup) := by
  intro urls
  induction urls with
  | nil =>
    intro h m m' h' hrun
    simp only [captureLoop, Prod.mk.injEq, Except.ok.injEq] at hrun
    rw [← hrun.1]
    simp
  | cons url rest ih =>
    intro h m m' h' hrun
    simp only [captureLoop] at hrun
    split at hrun
    · simp at hrun
    · split at hrun
      · simp at hrun
      · obtain ⟨hk, hn⟩ := ih _ _ _ _ hrun
        constructor
        · intro x
          rw [hk x, GoMap.mem_keys_set, List.mem_cons]
          tauto
        · intro hm
          exact hn (GoMap.nodup_keys_set m url _ hm)

/-- Splitting the URL list: once the loop has completed a prefix, it goes on with the rest
from the history and the map the prefix left. -/
theorem captureLoop_append (w : World) :
    ∀ (pre rest : List String) (h : List Event) (m m1 : GoMap) (h1 : List Event),
      captureLoop w h pre m = (Except.ok m1, h1) →
        captureLoop w h (pre ++ rest) m = captureLoop w h1 rest m1 := by
  intro pre
  induction pre with
  | nil =>
    intro rest h m m1 h1 hrun
    simp only [captureLoop, Prod.mk.injEq, Except.ok.injEq] at hrun
    rw [List.nil_append, hrun.1, hrun.2]
  | cons url pre ih =>
    intro rest h m m1 h1 hrun
    simp only [captureLoop, List.cons_append] at hrun ⊢
    rcases hct : captureTasks w h url with ⟨r, h2⟩
    rw [hct] at hrun
    cases r with
    | error err => simp at hrun
    | ok buf =>
      simp only at hrun ⊢
      rcases hsv : saveScreenshotToFile w h2 buf with ⟨r2, h3⟩
      rw [hsv] at hrun
      cases r2 with
      | error err => simp at hrun
      | ok imagePath =>
        simp only at hrun ⊢
        exact ih _ _ _ _ _ hrun

/-! ### The shape of a trace -/

/-- One run of the capture recipe extends the history by calls of which exactly one is a
navigation, to the URL, and none is a call of the persister: also when the run fails. -/
theorem captureTasks_trace (w : World) (h : List Event) (url : String) :
    ∃ t, (captureTasks w h url).2 = h ++ t ∧ marks t = [Mark.nav url] := by
  simp only [captureTasks, runActions]
  cases w.exec h (Action.navigate url) with
  | some err => exact ⟨[Event.mk (Action.navigate url) false], rfl, rfl⟩
  | none =>
    simp only
    cases w.exec (h ++ [Event.mk (Action.navigate url) true])
        (Action.waitVisible ".page-dashboard") with
    | some err =>
      exact ⟨[Event.mk (Action.navigate url) true,
        Event.mk (Action.waitVisible ".page-dashboard") false], by simp, rfl⟩
    | none =>
      simp only
      cases w.exec (h ++ [Event.mk (Action.navigate url) true]
          ++ [Event.mk (Action.waitVisible ".page-dashboard") true]) (Action.sleep 2) with
      | some err =>
        exact ⟨[Event.mk (Action.navigate url) true,
          Event.mk (Action.waitVisible ".page-dashboard") true,
          Event.mk (Action.sleep 2) false], by simp, rfl⟩
      | none =>
        simp only
        cases w.screenshot (h ++ [Event.mk (Action.navigate url) true]
          ++ [Event.mk (Action.waitVisible ".page-dashboard") true]
          ++ [Event.mk (Action.sleep 2) true]) with
        | error err =>
          exact ⟨[Event.mk (Action.navigate url) true,
            Event.mk (Action.waitVisible ".page-dashboard") true,
            Event.mk (Action.sleep 2) true,
            Event.mk Action.captureScreenshot false], by simp, rfl⟩
        | ok buf =>
          exact ⟨[Event.mk (Action.navigate url) true,
            Event.mk (Action.waitVisible ".page-dashboard") true,
            Event.mk (Action.sleep 2) true,
            Event.mk Action.captureScreenshot true], by simp, rfl⟩

/-- One call of the persister extends the history by calls of which exactly one is the
decoding that opens it, and none is a navigation. -/
theorem saveScreenshotToFile_trace (w : World) (h : List Event) (data : Bytes) :
    ∃ t, (saveScreenshotToFile w h data).2 = h ++ t ∧ marks t = [Mark.persist] := by
  unfold saveScreenshotToFile
  split
  · exact ⟨[Event.mk (Action.pngDecode data) false], rfl, rfl⟩
  · simp only
    split
    · simp only [List.append_assoc, List.append_cancel_left_eq, exists_eq_left']; rfl
    · split
      · simp only [List.append_assoc, List.append_cancel_left_eq, exists_eq_left']; rfl
      · split
        · simp only [List.append_assoc, List.append_cancel_left_eq, exists_eq_left']; rfl
        · simp only [List.append_assoc, List.append_cancel_left_eq, exists_eq_left']; rfl

/-- A loop that completes has, for each URL in order, navigated to it and called the
persister once. -/
theorem captureLoop_ok_trace (w : World) :
    ∀ (urls : List String) (h : List Event) (m m' : GoMap) (h' : List Event),
      captureLoop w h urls m = (Except.ok m', h') →
        ∃ t, h' = h ++ t ∧ marks t = urls.flatMap (fun v => [Mark.nav v, Mark.persist]) := by
  intro urls
  induction urls with
  | nil =>
    intro h m m' h' hrun
    simp only [captureLoop, Prod.mk.injEq] at hrun
    exact ⟨[], by simp [hrun.2], rfl⟩
  | cons url rest ih =>
    intro h m m' h' hrun
    simp only [captureLoop] at hrun
    obtain ⟨t1, ht1, hm1⟩ := captureTasks_trace w h url
    rcases hct : captureTasks w h url with ⟨r, h2⟩
    rw [hct] at hrun ht1
    cases r with
    | error err => simp at hrun
    | ok buf =>
      simp only at hrun ht1
      obtain ⟨t2, ht2, hm2⟩ := saveScreenshotToFile_trace w h2 buf
      rcases hsv : saveScreenshotToFile w h2 buf with ⟨r2, h3⟩
      rw [hsv] at hrun ht2
      cases r2 with
      | error err => simp at hrun
      | ok imagePath =>
        simp only at hrun ht2
        obtain ⟨t3, ht3, hm3⟩ := ih _ _ _ _ hrun
        refine ⟨t1 ++ (t2 ++ t3), ?_, ?_⟩
        · rw [ht3, ht2, ht1]; simp only [List.append_assoc]
        · rw [marks_append, marks_append, hm1, hm2, hm3, List.flatMap_cons]; rfl

/-! ### Capture orchestrator: the batch -/

/-- After a successful login on a non-empty list, the call ends as the loop ends. -/
theorem ScreenCaptureTasks_after_login (p : Proc) (w : World) (conn : MonitorConnection)
    (urls : List String) (h0 : List Event) (hne : urls ≠ [])
    (hlogin : loginGrafanaTasks w [] conn.URL conn.Username conn.Password = (none, h0)) :
    ScreenCaptureTasks p w urls conn =
      match captureLoop w h0 urls [] with
      | (Except.error msg, h1) =>
        Outcome.mk (createAllocContext p false) (GoResult.returned none (some msg)) h1
      | (Except.ok m, h1) =>
        Outcome.mk (createAllocContext p false) (GoResult.returned (some m) none) h1 := by
  cases urls with
  | nil => exact absurd rfl hne
  | cons url rest => simp only [ScreenCaptureTasks, List.head?, hlogin]

/-- C1: for every target-URL list of length at least one, if every call whose error the
batch looks at succeeds (the login calls, each navigate, wait, sleep and capture, and each
decode, directory creation, file creation and encode of the persister),
`ScreenCaptureTasks` returns no error and a map whose keys are exactly the URLs of the
list, each once. -/
theorem ScreenCaptureTasks_complete (p : Proc) (w : World) (targetURLs : List String)
    (conn : MonitorConnection) (hlen : 1 ≤ targetURLs.length)
    (hok : ∀ ev ∈ (ScreenCaptureTasks p w targetURLs conn).trace,
      ev.checked = true → ev.ok = true) :
    ∃ m, (ScreenCaptureTasks p w targetURLs conn).result = GoResult.returned (some m) none
      ∧ (∀ url, url ∈ m.keys ↔ url ∈ targetURLs) ∧ m.keys.Nodup := by
  have hne : targetURLs ≠ [] := by
    intro hnil
    simp [hnil] at hlen
  rcases hl : loginGrafanaTasks w [] conn.URL conn.Username conn.Password with ⟨r, h0⟩
  cases r with
  | some err =>
    exfalso
    obtain ⟨ev, hev, hchk, hbad⟩ := loginGrafanaTasks_error_bad w _ _ _ _ _ _ hl
    have htr : (ScreenCaptureTasks p w targetURLs conn).trace = h0 := by
      cases targetURLs with
      | nil => exact absurd rfl hne
      | cons url rest => simp only [ScreenCaptureTasks, List.head?, hl]
    have := hok ev (htr ▸ hev) hchk
    simp [hbad] at this
  | none =>
    rw [ScreenCaptureTasks_after_login p w conn targetURLs h0 hne hl] at hok ⊢
    rcases hc : captureLoop w h0 targetURLs [] with ⟨r, h1⟩
    rw [hc] at hok
    cases r with
    | error msg =>
      exfalso
      obtain ⟨ev, hev, hchk, hbad⟩ := captureLoop_error_bad w _ _ _ _ _ hc
      have := hok ev hev hchk
      simp [hbad] at this
    | ok m =>
      obtain ⟨hk, hn⟩ := captureLoop_keys w _ _ _ _ _ hc
      exact ⟨m, rfl, fun url => by simpa [GoMap.keys] using hk url, hn List.nodup_nil⟩

/-- A batch of three dashboards, one of them twice, in a session where every call succeeds. -/
theorem ScreenCaptureTasks_complete_witness :
    ∃ m, (ScreenCaptureTasks sampleProc (calmWorld "http://grafana:3000/")
        [sampleA, sampleB, sampleA] sampleConn).result = GoResult.returned (some m) none
      ∧ (∀ url, url ∈ m.keys ↔ url ∈ [sampleA, sampleB, sampleA]) ∧ m.keys.Nodup :=
  ScreenCaptureTasks_complete sampleProc (calmWorld "http://grafana:3000/")
    [sampleA, sampleB, sampleA] sampleConn (by decide) (by decide)

/-- C2: when login succeeds, the loop completes the URLs before position `pre.length`, and
a step fails for the URL `u` at that position (the navigate/wait/capture run, or the
persister), `ScreenCaptureTasks` returns the `nil` map and an error whose message
contains `u`. -/
theorem ScreenCaptureTasks_step_fails (p : Proc) (w : World) (conn : MonitorConnection)
    (pre post : List String) (u : String) (h0 h1 : List Event) (m1 : GoMap)
    (hlogin : loginGrafanaTasks w [] conn.URL conn.Username conn.Password = (none, h0))
    (hpre : captureLoop w h0 pre [] = (Except.ok m1, h1))
    (hfail : (∃ e h2, captureTasks w h1 u = (Except.error e, h2)) ∨
      (∃ buf h2 e h3, captureTasks w h1 u = (Except.ok buf, h2) ∧
        saveScreenshotToFile w h2 buf = (Except.error e, h3))) :
    ∃ msg, (ScreenCaptureTasks p w (pre ++ u :: post) conn).result =
        GoResult.returned none (some msg) ∧ u.data <:+: msg.data := by
  rw [ScreenCaptureTasks_after_login p w conn _ h0 (by simp) hlogin,
    captureLoop_append w pre (u :: post) h0 [] m1 h1 hpre]
  simp only [captureLoop]
  rcases hfail with ⟨e, h2, hct⟩ | ⟨buf, h2, e, h3, hct, hsv⟩
  · rw [hct]
    refine ⟨_, rfl, ?_⟩
    simp only [String.data_append]
    exact ⟨"failed to capture screenshot for URL ".data, ": ".data ++ e.data, by simp⟩
  · rw [hct]
    simp only [hsv]
    refine ⟨_, rfl, ?_⟩
    simp only [String.data_append]
    exact ⟨"failed to save screenshot for URL ".data, ": ".data ++ e.data, by simp⟩

/-- The batch of `sampleA` then `sampleB`, where the marker of `sampleB` never shows: the
error names `sampleB`. -/
theorem ScreenCaptureTasks_step_fails_witness :
    ∃ msg, (ScreenCaptureTasks sampleProc (slowPageWorld sampleB)
        ([sampleA] ++ sampleB :: []) sampleConn).result = GoResult.returned none (some msg)
      ∧ sampleB.data <:+: msg.data :=
  ScreenCaptureTasks_step_fails sampleProc (slowPageWorld sampleB) sampleConn
    [sampleA] [] sampleB sampleLoginTrace sampleFirstTrace sampleFirstMap
    (by decide) (by decide)
    (Or.inl ⟨"context deadline exceeded",
      (captureTasks (slowPageWorld sampleB) sampleFirstTrace sampleB).2, by decide⟩)

/-- C3: when login succeeds, the loop completes the URLs before position `pre.length`, and
the navigate/wait/capture run fails for the URL `u` at that position, the batch stops
there, and what it did after login is, in order: for each earlier URL one navigation to it
followed by one call of the persister, then the navigation to `u`; no persister call for
`u`, and neither a navigation nor a persister call for a later URL. -/
theorem ScreenCaptureTasks_recipe_fails_trace (p : Proc) (w : World) (conn : MonitorConnection)
    (pre post : List String) (u e : String) (h0 h1 h2 : List Event) (m1 : GoMap)
    (hlogin : loginGrafanaTasks w [] conn.URL conn.Username conn.Password = (none, h0))
    (hpre : captureLoop w h0 pre [] = (Except.ok m1, h1))
    (hfail : captureTasks w h1 u = (Except.error e, h2)) :
    (ScreenCaptureTasks p w (pre ++ u :: post) conn).trace = h2
    ∧ ∃ t, h2 = h0 ++ t
      ∧ marks t = pre.flatMap (fun v => [Mark.nav v, Mark.persist]) ++ [Mark.nav u] := by
  constructor
  · rw [ScreenCaptureTasks_after_login p w conn _ h0 (by simp) hlogin,
      captureLoop_append w pre (u :: post) h0 [] m1 h1 hpre]
    simp only [captureLoop, hfail]
  · obtain ⟨t1, ht1, hm1⟩ := captureLoop_ok_trace w _ _ _ _ _ hpre
    obtain ⟨t2, ht2, hm2⟩ := captureTasks_trace w h1 u
    rw [hfail] at ht2
    simp only at ht2
    exact ⟨t1 ++ t2, by rw [ht2, ht1, List.append_assoc], by rw [marks_append, hm1, hm2]⟩

/-- The batch of `sampleA` then `sampleB`, where the marker of `sampleB` never shows: one
navigation and one persister call for `sampleA`, then the navigation to `sampleB`. -/
theorem ScreenCaptureTasks_recipe_fails_trace_witness :
    (ScreenCaptureTasks sampleProc (slowPageWorld sampleB)
        ([sampleA] ++ sampleB :: []) sampleConn).trace =
      (captureTasks (slowPageWorld sampleB) sampleFirstTrace sampleB).2
    ∧ ∃ t, (captureTasks (slowPageWorld sampleB) sampleFirstTrace sampleB).2 =
        sampleLoginTrace ++ t
      ∧ marks t = [sampleA].flatMap (fun v => [Mark.nav v, Mark.persist]) ++ [Mark.nav sampleB] :=
  ScreenCaptureTasks_recipe_fails_trace sampleProc (slowPageWorld sampleB) sampleConn
    [sampleA] [] sampleB "context deadline exceeded" sampleLoginTrace sampleFirstTrace
    (captureTasks (slowPageWorld sampleB) sampleFirstTrace sampleB).2 sampleFirstMap
    (by decide) (by decide) (by decide)

/-! ### Allocator factory -/

/-- C9, as stated, fails: with no `HEADLESS` variable and a local browser,
`createAllocContext(false)` starts the browser with the headless flag `true`. -/
theorem createAllocContext_false_headless_unset :
    createAllocContext sampleProc false =
      Allocator.exec [("headless", FlagValue.bool true), ("no-first-run", FlagValue.bool true),
        ("headless", FlagValue.bool true), ("disable-gpu", FlagValue.bool false),
        ("enable-automation", FlagValue.bool false), ("disable-extensions", FlagValue.bool true)]
    ∧ flagValue [("headless", FlagValue.bool true), ("no-first-run", FlagValue.bool true),
        ("headless", FlagValue.bool true), ("disable-gpu", FlagValue.bool false),
        ("enable-automation", FlagValue.bool false), ("disable-extensions", FlagValue.bool true)]
        "headless" = some (FlagValue.bool true) := by
  decide

/-- C9, amended: for every environment, configuration and default option table,
`createAllocContext(false)` either attaches to the configured remote endpoint, or starts a
local browser whose effective headless flag is `true` when `HEADLESS` is unset, the parsed
value when `HEADLESS` parses as a boolean, and `false` (the argument) only when `HEADLESS`
is set to a value that does not parse. -/
theorem createAllocContext_false_headless (p : Proc) :
    match createAllocContext p false with
    | Allocator.exec opts =>
      flagValue opts "headless" = some (FlagValue.bool
        (match p.env "HEADLESS" with
         | none => true
         | some v => (ParseBool v).getD false))
    | Allocator.remote url => url = p.globalConfig.ChromeDP ∧ url ≠ "" := by
  unfold createAllocContext
  by_cases hc : p.globalConfig.ChromeDP = ""
  · simp only [hc, if_true]
    simp only [flagValue, GetEnv, List.reverse_append]
    cases hv : p.env "HEADLESS" with
    | none => simp [List.find?, ParseBool]
    | some v => cases hb : ParseBool v <;> simp [List.find?, hb]
  · simp only [hc, if_false]
    exact ⟨trivial, hc⟩

/-! ### Capture orchestrator: the empty list -/

/-- C10: on the empty list `ScreenCaptureTasks` panics at `targetURLs[0]` with no event
performed (the login tasks have not run), and on a list with a first element the index
is in bounds and the call does not panic. -/
theorem ScreenCaptureTasks_index_zero (p : Proc) (w : World) (conn : MonitorConnection) :
    (ScreenCaptureTasks p w [] conn).result =
        GoResult.panicked "runtime error: index out of range [0] with length 0"
    ∧ (ScreenCaptureTasks p w [] conn).trace = []
    ∧ ∀ (url : String) (rest : List String) (msg : String),
        (url :: rest).head? = some url
        ∧ (ScreenCaptureTasks p w (url :: rest) conn).result ≠ GoResult.panicked msg := by
  refine ⟨rfl, rfl, ?_⟩
  intro url rest msg
  refine ⟨rfl, ?_⟩
  simp only [ScreenCaptureTasks, List.head?]
  split
  · simp
  · split <;> simp

/-! ### Login -/

/-- What the code decides on: when the page loads and `path.Base` of the reported location
is not `login`, the login tasks return success after three calls, none of them on a
credential field. -/
theorem loginGrafanaTasks_base_not_login (w : World) (h : List Event)
    (url user pass loc : String)
    (hnav : w.exec h (Action.navigate (url ++ "/login")) = none)
    (hbody : w.exec (h ++ [Event.mk (Action.navigate (url ++ "/login")) true])
      (Action.waitReady "body") = none)
    (hloc : w.location (h ++ [Event.mk (Action.navigate (url ++ "/login")) true]
      ++ [Event.mk (Action.waitReady "body") true]) = Except.ok loc)
    (hbase : pathBase loc ≠ "login") :
    loginGrafanaTasks w h url user pass =
      (none, h ++ [Event.mk (Action.navigate (url ++ "/login")) true]
        ++ [Event.mk (Action.waitReady "body") true] ++ [Event.mk Action.location true]) := by
  unfold loginGrafanaTasks
  simp only [runActions, hnav, hbody, hloc, hbase, ne_eq, not_false_eq_true, if_true]

/-- What the code decides on: when the page loads and `path.Base` of the reported location
is `login`, the login tasks are the run of the five credential calls, in this order; the
run stops at the first error and returns it. -/
theorem loginGrafanaTasks_base_login (w : World) (h : List Event)
    (url user pass loc : String)
    (hnav : w.exec h (Action.navigate (url ++ "/login")) = none)
    (hbody : w.exec (h ++ [Event.mk (Action.navigate (url ++ "/login")) true])
      (Action.waitReady "body") = none)
    (hloc : w.location (h ++ [Event.mk (Action.navigate (url ++ "/login")) true]
      ++ [Event.mk (Action.waitReady "body") true]) = Except.ok loc)
    (hbase : pathBase loc = "login") :
    loginGrafanaTasks w h url user pass =
      runActions w (h ++ [Event.mk (Action.navigate (url ++ "/login")) true]
          ++ [Event.mk (Action.waitReady "body") true] ++ [Event.mk Action.location true])
        [Action.waitVisible "input[name=\x27user\x27]",
         Action.sendKeys "input[name=\x27user\x27]" user,
         Action.sendKeys "input[name=\x27password\x27]" pass,
         Action.click "button[type=\x27submit\x27]",
         Action.waitReady ".page-dashboard"] := by
  unfold loginGrafanaTasks
  simp only [runActions, hnav, hbody, hloc, hbase, ne_eq, not_true_eq_false, if_false]

/-- C4 at a failing input: the browser reports `http://grafana:3000/?redirect=/login`,
whose path is `/` (final segment empty, not `login`), yet `path.Base` of the whole
location is `login`: the login tasks go on to the credential fields. When every call
succeeds they type both credentials and click; when the username field never shows they
return the error of the wait. -/
theorem loginGrafanaTasks_query_ends_in_login :
    specFinalPathSegment "http://grafana:3000/?redirect=/login" = ""
    ∧ pathBase "http://grafana:3000/?redirect=/login" = "login"
    ∧ loginGrafanaTasks (calmWorld "http://grafana:3000/?redirect=/login") []
        "http://grafana:3000" "admin" "secret" =
      (none,
        [Event.mk (Action.navigate "http://grafana:3000/login") true,
         Event.mk (Action.waitReady "body") true,
         Event.mk Action.location true,
         Event.mk (Action.waitVisible "input[name=\x27user\x27]") true,
         Event.mk (Action.sendKeys "input[name=\x27user\x27]" "admin") true,
         Event.mk (Action.sendKeys "input[name=\x27password\x27]" "secret") true,
         Event.mk (Action.click "button[type=\x27submit\x27]") true,
         Event.mk (Action.waitReady ".page-dashboard") true])
    ∧ loginGrafanaTasks (stuckWorld "http://grafana:3000/?redirect=/login") []
        "http://grafana:3000" "admin" "secret" =
      (some "context deadline exceeded",
        [Event.mk (Action.navigate "http://grafana:3000/login") true,
         Event.mk (Action.waitReady "body") true,
         Event.mk Action.location true,
         Event.mk (Action.waitVisible "input[name=\x27user\x27]") false]) := by
  decide

/-- C5 at a failing input: the browser reports `http://grafana:3000/login?orgId=1`, whose
path `/login` ends in the segment `login`, yet `path.Base` of the whole location is
`login?orgId=1`: the login tasks return success after reading the location, with no
credential action issued. -/
theorem loginGrafanaTasks_login_with_query :
    specFinalPathSegment "http://grafana:3000/login?orgId=1" = "login"
    ∧ pathBase "http://grafana:3000/login?orgId=1" = "login?orgId=1"
    ∧ loginGrafanaTasks (calmWorld "http://grafana:3000/login?orgId=1") []
        "http://grafana:3000" "admin" "secret" =
      (none,
        [Event.mk (Action.navigate "http://grafana:3000/login") true,
         Event.mk (Action.waitReady "body") true,
         Event.mk Action.location true]) := by
  decide

/-! ### Capture orchestrator: login failure -/

/-- What the code does when login fails with the error `e`: the batch stops with the events
of the login, the `nil` map, and the message `failed to capture screenshot for  ` followed
by `e`. -/
theorem ScreenCaptureTasks_login_error (p : Proc) (w : World) (conn : MonitorConnection)
    (url e : String) (rest : List String) (h0 : List Event)
    (hlogin : loginGrafanaTasks w [] conn.URL conn.Username conn.Password = (some e, h0)) :
    ScreenCaptureTasks p w (url :: rest) conn =
      Outcome.mk (createAllocContext p false)
        (GoResult.returned none (some ("failed to capture screenshot for  " ++ e))) h0 := by
  simp only [ScreenCaptureTasks, List.head?, hlogin]

/-- C6 at a failing input: the navigation to the login page is refused. No target URL is
visited, nothing is persisted and no map is returned, but the error reads
`failed to capture screenshot for  page load error net::ERR_CONNECTION_REFUSED`: it opens
with the words of the per-URL capture failure and the word `login` is nowhere in it. -/
theorem ScreenCaptureTasks_login_refused :
    ScreenCaptureTasks sampleProc refusedWorld ["http://grafana:3000/d/a"] sampleConn =
      Outcome.mk (createAllocContext sampleProc false)
        (GoResult.returned none
          (some "failed to capture screenshot for  page load error net::ERR_CONNECTION_REFUSED"))
        [Event.mk (Action.navigate "http://grafana:3000/login") false]
    ∧ "failed to capture screenshot for ".data <+:
        "failed to capture screenshot for  page load error net::ERR_CONNECTION_REFUSED".data
    ∧ ¬ ("login".data <:+:
        "failed to capture screenshot for  page load error net::ERR_CONNECTION_REFUSED".data) := by
  set_option maxRecDepth 4000 in decide

/-! ### Image persister: failure stages -/

theorem isPrefixOf_append_self (a b : List Char) : a.isPrefixOf (a ++ b) = true := by
  induction a with
  | nil => simp [List.isPrefixOf]
  | cons c cs ih => simp [List.isPrefixOf, ih]

theorem errorStage_decode (c : String) :
    errorStage ("failed to decode PNG: " ++ c) = some Stage.decode := by
  simp only [errorStage, String.data_append, isPrefixOf_append_self, if_true]

theorem errorStage_mkdir (rest : String) : errorStage ("mkdir " ++ rest) = some Stage.mkdir := by
  have h1 : "failed to decode PNG: ".data.isPrefixOf ("mkdir ".data ++ rest.data) = false := by
    rfl
  simp only [errorStage, String.data_append, isPrefixOf_append_self, h1, if_true]
  rfl

theorem errorStage_open (rest : String) : errorStage ("open " ++ rest) = some Stage.create := by
  have h1 : "failed to decode PNG: ".data.isPrefixOf ("open ".data ++ rest.data) = false := by
    rfl
  have h2 : "mkdir ".data.isPrefixOf ("open ".data ++ rest.data) = false := by
    rfl
  simp only [errorStage, String.data_append, isPrefixOf_append_self, h1, h2, if_true]
  rfl

theorem errorStage_encode (c : String) :
    errorStage ("failed to encode JPEG: " ++ c) = some Stage.encode := by
  have h1 : "failed to decode PNG: ".data.isPrefixOf
      ("failed to encode JPEG: ".data ++ c.data) = false := by
    rfl
  have h2 : "mkdir ".data.isPrefixOf ("failed to encode JPEG: ".data ++ c.data) = false := by
    rfl
  have h3 : "open ".data.isPrefixOf ("failed to encode JPEG: ".data ++ c.data) = false := by
    rfl
  simp only [errorStage, String.data_append, isPrefixOf_append_self, h1, h2, h3, if_true]
  rfl

/-- The stage of the call a failing persister stopped on, and the text it returns: the
decode and encode errors under the words of `saveScreenshotToFile`, the errors of
`os.MkdirAll` and `os.Create` under the operation the `os` package names. -/
theorem saveScreenshotToFile_error_form (w : World) (h : List Event) (data : Bytes)
    (e : String) (h' : List Event)
    (hrun : saveScreenshotToFile w h data = (Except.error e, h')) :
    (∃ c, e = "failed to decode PNG: " ++ c ∧
        (failedCall h').bind stageOfCall = some Stage.decode)
    ∨ (∃ dir c, e = "mkdir " ++ (dir ++ ": " ++ c) ∧
        (failedCall h').bind stageOfCall = some Stage.mkdir)
    ∨ (∃ name c, e = "open " ++ (name ++ ": " ++ c) ∧
        (failedCall h').bind stageOfCall = some Stage.create)
    ∨ (∃ c, e = "failed to encode JPEG: " ++ c ∧
        (failedCall h').bind stageOfCall = some Stage.encode) := by
  unfold saveScreenshotToFile at hrun
  split at hrun
  · rename_i c _
    simp only [Prod.mk.injEq, Except.error.injEq] at hrun
    refine Or.inl ⟨c, hrun.1.symm, ?_⟩
    rw [← hrun.2]
    simp [failedCall, Event.checked, stageOfCall]
  · simp only at hrun
    split at hrun
    · rename_i msg hmk
      simp only [Prod.mk.injEq, Except.error.injEq] at hrun
      refine Or.inr (Or.inl ?_)
      unfold osMkdirAll at hmk
      split at hmk
      · rename_i cause _
        simp only [Option.some.injEq, PathError.Error] at hmk
        generalize w.mkdirFailedAt _ _ = dir at hmk
        refine ⟨dir, cause, ?_, ?_⟩
        · rw [← hrun.1, ← hmk]
          apply String.ext
          simp [String.data_append]
        · rw [← hrun.2]
          simp [failedCall, Event.checked, stageOfCall]
      · simp at hmk
    · split at hrun
      · rename_i msg hcr
        simp only [Prod.mk.injEq, Except.error.injEq] at hrun
        refine Or.inr (Or.inr (Or.inl ?_))
        unfold osCreate at hcr
        split at hcr
        · rename_i cause _
          simp only [Option.some.injEq, PathError.Error] at hcr
          generalize (screenshotPaths _ _).2 = name at hcr
          refine ⟨name, cause, ?_, ?_⟩
          · rw [← hrun.1, ← hcr]
            apply String.ext
            simp [String.data_append]
          · rw [← hrun.2]
            simp [failedCall, Event.checked, stageOfCall]
        · simp at hcr
      · split at hrun
        · rename_i c _
          simp only [Prod.mk.injEq, Except.error.injEq] at hrun
          refine Or.inr (Or.inr (Or.inr ⟨c, hrun.1.symm, ?_⟩))
          rw [← hrun.2]
          simp [failedCall, Event.checked, stageOfCall]
        · simp at hrun

/-- From the error alone the stage is read: the stage the text opens with is the stage of
the call the persister stopped on. -/
theorem saveScreenshotToFile_error_stage (w : World) (h : List Event) (data : Bytes)
    (e : String) (h' : List Event)
    (hrun : saveScreenshotToFile w h data = (Except.error e, h')) :
    ∃ s, (failedCall h').bind stageOfCall = some s ∧ errorStage e = some s := by
  rcases saveScreenshotToFile_error_form w h data e h' hrun with
    ⟨c, he, hs⟩ | ⟨dir, c, he, hs⟩ | ⟨name, c, he, hs⟩ | ⟨c, he, hs⟩
  · exact ⟨Stage.decode, hs, by rw [he]; exact errorStage_decode c⟩
  · exact ⟨Stage.mkdir, hs, by rw [he]; exact errorStage_mkdir _⟩
  · exact ⟨Stage.create, hs, by rw [he]; exact errorStage_open _⟩
  · exact ⟨Stage.encode, hs, by rw [he]; exact errorStage_encode c⟩

/-- C8: whenever `saveScreenshotToFile` returns an error, the text of the error opens with
words that name the stage that failed (`failed to decode PNG: `, `mkdir `, `open `,
`failed to encode JPEG: `), so the caller reads the stage off the error alone; and any two
failing calls that return the same error stopped at the same stage, whatever the world,
the input and the underlying cause. -/
theorem saveScreenshotToFile_stages_distinct (w : World) (h : List Event) (data : Bytes)
    (e : String) (h' : List Event)
    (hrun : saveScreenshotToFile w h data = (Except.error e, h')) :
    (∃ s, (failedCall h').bind stageOfCall = some s ∧ errorStage e = some s)
    ∧ ∀ (w2 : World) (h2 : List Event) (data2 : Bytes) (h2' : List Event),
        saveScreenshotToFile w2 h2 data2 = (Except.error e, h2') →
        (failedCall h2').bind stageOfCall = (failedCall h').bind stageOfCall := by
  obtain ⟨s, hs, hes⟩ := saveScreenshotToFile_error_stage w h data e h' hrun
  refine ⟨⟨s, hs, hes⟩, ?_⟩
  intro w2 h2 data2 h2' hrun2
  obtain ⟨s2, hs2, hes2⟩ := saveScreenshotToFile_error_stage w2 h2 data2 e h2' hrun2
  rw [hs, hs2]
  rw [hes] at hes2
  exact hes2.symm

/-- The directory cannot be made: the error is the one of `os.MkdirAll`, and it opens
with `mkdir`. -/
theorem saveScreenshotToFile_stages_distinct_witness :
    (∃ s, (failedCall (saveScreenshotToFile (mkdirFailsWorld "permission denied") []
          [137, 80]).2).bind stageOfCall = some s
        ∧ errorStage "mkdir static/screenshots/2024/03/07: permission denied" = some s)
    ∧ ∀ (w2 : World) (h2 : List Event) (data2 : Bytes) (h2' : List Event),
        saveScreenshotToFile w2 h2 data2 =
          (Except.error "mkdir static/screenshots/2024/03/07: permission denied", h2') →
        (failedCall h2').bind stageOfCall =
          (failedCall (saveScreenshotToFile (mkdirFailsWorld "permission denied") []
            [137, 80]).2).bind stageOfCall :=
  saveScreenshotToFile_stages_distinct (mkdirFailsWorld "permission denied") [] [137, 80]
    "mkdir static/screenshots/2024/03/07: permission denied"
    (saveScreenshotToFile (mkdirFailsWorld "permission denied") [] [137, 80]).2 (by decide)

/-- The four stages on one cause: each error is told from the others by how it opens. -/
theorem saveScreenshotToFile_stage_samples :
    (saveScreenshotToFile (mkdirFailsWorld "permission denied") [] [137, 80]).1 =
      Except.error "mkdir static/screenshots/2024/03/07: permission denied"
    ∧ (saveScreenshotToFile (createFailsWorld "permission denied") [] [137, 80]).1 =
      Except.error
        "open static/screenshots/2024/03/07/02030405-0607-0809-0a0b-0c0d0e0f1011.jpg: permission denied"
    ∧ errorStage "failed to decode PNG: permission denied" = some Stage.decode
    ∧ errorStage "mkdir static/screenshots/2024/03/07: permission denied" = some Stage.mkdir
    ∧ errorStage
        "open static/screenshots/2024/03/07/02030405-0607-0809-0a0b-0c0d0e0f1011.jpg: permission denied"
        = some Stage.create
    ∧ errorStage "failed to encode JPEG: permission denied" = some Stage.encode := by
  decide

end Service
